import Mathlib

/-!
Shallow embedding of `sha3-256.c` (SHA3-256 via the Keccak sponge) and proofs
of the specification claims about it.

The 5×5 state of 64-bit lanes (`uint64_t *state[5]`) is embedded as a list of
five rows, each a list of five `Nat` lanes taken modulo `2 ^ 64`.  Byte buffers
(`uint8_t *`) are lists of `Nat` below 256.  All machine arithmetic is made
explicit with `% 2 ^ 64`.
-/

namespace Sha3

/-- The state: five rows of five 64-bit lanes (`uint64_t *state[5]`). -/
abbrev KState := List (List Nat)

/-- Read lane `state[r][c]`. -/
def getLane (s : KState) (r c : Nat) : Nat := (s.getD r []).getD c 0

/-- Write lane `state[r][c] = v`. -/
def setLane (s : KState) (r c : Nat) (v : Nat) : KState :=
  s.set r ((s.getD r []).set c v)

/-- `ROTL64(x, r)`: 64-bit left rotation, for `0 < r < 64` and `x < 2 ^ 64`. -/
def rotl64 (x r : Nat) : Nat := ((x <<< r) % 2 ^ 64) ||| (x >>> (64 - r))

/-- The 24 round constants of `keccak` (`round_constants`). -/
def round_constants : List Nat :=
  [0x0000000000000001, 0x0000000000008082, 0x800000000000808a,
   0x8000000080008000, 0x000000000000808b, 0x0000000080000001,
   0x8000000080008081, 0x8000000000008009, 0x000000000000008a,
   0x0000000000000088, 0x0000000080008009, 0x000000008000000a,
   0x000000008000808b, 0x800000000000008b, 0x8000000000008089,
   0x8000000000008003, 0x8000000000008002, 0x8000000000000080,
   0x000000000000800a, 0x800000008000000a, 0x8000000080008081,
   0x8000000000008080, 0x0000000080000001, 0x8000000080008008]

/-- The 24 rotation amounts of the rho step (`rho_rotations`). -/
def rho_rotations : List Nat :=
  [1, 3, 6, 10, 15, 21, 28, 36, 45, 55, 2, 14,
   27, 41, 56, 8, 25, 43, 62, 18, 39, 61, 20, 44]

/-- The 24 target flat indices of the pi step (`pi_shifts`). -/
def pi_shifts : List Nat :=
  [10, 7, 11, 17, 18, 3, 5, 16, 8, 21, 24, 4,
   15, 23, 19, 13, 12, 2, 20, 14, 22, 9, 6, 1]

/-- Parity of column `i`: XOR of `state[j][i]` over the five rows `j`
(the first loop of the theta step, filling `temp_row`). -/
def colParity (s : KState) (i : Nat) : Nat :=
  (List.range 5).foldl (fun acc j => acc ^^^ getLane s j i) 0

/-- The theta step of `keccak`: every lane of column `i` is XORed with
`temp_row[(i+4)%5] ^ ROTL64(temp_row[(i+1)%5], 1)`, where `temp_row` holds the
column parities of the incoming state. -/
def theta (s : KState) : KState :=
  (List.range 5).foldl (fun st i =>
    (List.range 5).foldl (fun st2 j =>
      setLane st2 j i (getLane st2 j i ^^^
        (colParity s ((i + 4) % 5) ^^^ rotl64 (colParity s ((i + 1) % 5)) 1))) st) s

/-- The combined rho and pi step of `keccak`: 24 iterations carrying a single
temporary lane, exactly as in the source (`temp_lane = state[0][1]; ...`). -/
def rho_pi (s : KState) : KState :=
  ((List.range 24).foldl (fun (p : KState × Nat) i =>
      let j := pi_shifts.getD i 0
      let t := getLane p.1 (j / 5) (j % 5)
      (setLane p.1 (j / 5) (j % 5) (rotl64 p.2 (rho_rotations.getD i 0)), t))
    (s, getLane s 0 1)).1

/-- Complement of a 64-bit word (`~x` on `uint64_t`). -/
def not64 (x : Nat) : Nat := x ^^^ (2 ^ 64 - 1)

/-- The chi step of `keccak`: each row is copied into `temp_row`, then
`state[i][j] ^= (~temp_row[(j+1)%5]) & temp_row[(j+2)%5]`. -/
def chi (s : KState) : KState :=
  (List.range 5).foldl (fun st i =>
    let row := st.getD i []
    (List.range 5).foldl (fun st2 j =>
      setLane st2 i j (getLane st2 i j ^^^
        (not64 (row.getD ((j + 1) % 5) 0) &&& row.getD ((j + 2) % 5) 0))) st) s

/-- The iota step of `keccak`:
`state[0][0] ^= round_constants[round]`. -/
def iota (round : Nat) (s : KState) : KState :=
  setLane s 0 0 (getLane s 0 0 ^^^ round_constants.getD round 0)

/-- `keccak`: 24 rounds, each applying theta, rho/pi, chi and iota in order
(the verbose printing of the source is modelled separately, see
`keccakVerbose`). -/
def keccak (s : KState) : KState :=
  (List.range 24).foldl (fun st round => iota round (chi (rho_pi (theta st)))) s

/-- `pad_input`: multi-rate padding written into the buffer starting at offset
`input_len`, translated line by line from the source. -/
def pad_input (input : List Nat) (input_len : Nat) : List Nat :=
  if input_len < 136 then
    let q := 136 - input_len % 136
    if q = 1 then input.set input_len 0x86
    else if q = 2 then (input.set input_len 0x06).set (input_len + 1) 0x80
    else
      let s1 := input.set input_len 0x06
      let s2 := (List.range' 1 (q - 2 - 1)).foldl
        (fun st i => st.set (input_len + i) 0x00) s1
      s2.set (input_len + (q - 2) + 1) 0x80
  else input

/-- The 64-bit word built by `absorb_input` for lane `i`: the loop
`for (j = 7; j >= 0; j--) input_word = input_word <<< 8 ||| input[i*8+j]`. -/
def laneOfBytes (input : List Nat) (i : Nat) : Nat :=
  (List.range 8).foldr (fun j w => (w <<< 8) ||| input.getD (i * 8 + j) 0) 0

/-- `absorb_input`: XOR the 17 rate lanes of the buffer into the state,
lane `i` going to `state[i / 5][i % 5]`. -/
def absorb_input (input : List Nat) (s : KState) : KState :=
  (List.range 17).foldl (fun st i =>
    setLane st (i / 5) (i % 5) (getLane st (i / 5) (i % 5) ^^^ laneOfBytes input i)) s

/-- The 200-byte input buffer as the driver presents it to `pad_input` and
`absorb_input`: the bytes actually read followed by zero fill (`calloc` /
`memset`). -/
def buffer (chunk : List Nat) : List Nat :=
  chunk ++ List.replicate (200 - chunk.length) 0

/-- The driver loop of `main`, with explicit fuel for structural recursion:
read up to 136 bytes, pad, absorb, permute; repeat while a full block was
read. -/
def sha3_absorbF : Nat → KState → List Nat → KState
  | 0, s, _ => s
  | fuel + 1, s, msg =>
    let chunk := msg.take 136
    let s2 := keccak (absorb_input (pad_input (buffer chunk) chunk.length) s)
    if chunk.length = 136 then sha3_absorbF fuel s2 (msg.drop 136) else s2

/-- The driver loop of `main` on a message given as a byte list. -/
def sha3_absorb (s : KState) (msg : List Nat) : KState :=
  sha3_absorbF (msg.length / 136 + 1) s msg

/-- The zeroed initial state (`calloc`). -/
def init_state : KState := List.replicate 5 (List.replicate 5 0)

/-- The 32 digest bytes: lanes `state[0][0] .. state[0][3]`, each serialized
as 8 little-endian bytes (this is the extraction the verbose hash dump of
`main` performs with `(uint8_t)(state[0][i] >> (j * 8))`). -/
def extract_digest (s : KState) : List Nat :=
  (List.range 4).foldl (fun acc i =>
    acc ++ (List.range 8).map (fun j => (getLane s 0 i >>> (j * 8)) % 256)) []

/-- The full hash: digest bytes of a message. -/
def sha3_256 (msg : List Nat) : List Nat :=
  extract_digest (sha3_absorb init_state msg)

/-- Lowercase hex digits: digit `n` is character `0x30 + n` below ten and
`0x57 + n` (so `a` through `f`) from ten up. -/
def hexDigits : List Char :=
  (List.range 16).map (fun n => Char.ofNat (if n < 10 then 0x30 + n else 0x57 + n))

/-- A byte as two lowercase hex characters. -/
def byteToHex (b : Nat) : List Char :=
  [hexDigits.getD (b / 16) '0', hexDigits.getD (b % 16) '0']

/-- A byte list rendered as a lowercase hex string, two characters per byte. -/
def hexRender (bs : List Nat) : String :=
  String.mk (bs.foldr (fun b acc => byteToHex b ++ acc) [])

/-- Hex digits of `n`, most significant first, no leading zeros (empty for 0);
the fuel argument bounds the digit count. -/
def hexDigitsOfAux : Nat → Nat → List Char
  | 0, _ => []
  | fuel + 1, n =>
    if n = 0 then [] else hexDigitsOfAux fuel (n / 16) ++ [hexDigits.getD (n % 16) '0']

/-- `printf("%lx", n)` for a 64-bit value: minimal lowercase hex digits,
`"0"` for zero. -/
def printfLx (n : Nat) : List Char :=
  if n = 0 then ['0'] else hexDigitsOfAux 16 n

/-- The final line printed by `main`:
`printf("0x%lx%lx%lx%lx\n", state[0][0], state[0][1], state[0][2], state[0][4])`. -/
def main_output (s : KState) : String :=
  String.mk (['0', 'x'] ++ printfLx (getLane s 0 0) ++ printfLx (getLane s 0 1) ++
    printfLx (getLane s 0 2) ++ printfLx (getLane s 0 4))

/-- A diagnostic print event, recording which printing routine `main` or
`keccak` invoked and the data it would render. -/
inductive Event where
  | message (id : Nat)
  | roundHeader (round : Nat)
  | stateDump (s : KState)
  | laneDump (s : KState)
  | inputDump (buf : List Nat)
  deriving Repr, DecidableEq

/-- One round of `keccak` with its `verbose` parameter: the round body
interleaved with the diagnostic print events the source emits when `verbose`
is set. -/
def keccakVStep (verbose : Bool) (p : KState × List Event) (round : Nat) :
    KState × List Event :=
  let l0 := if verbose then p.2 ++ [Event.roundHeader round] else p.2
  let s1 := theta p.1
  let l1 := if verbose then l0 ++ [Event.stateDump s1] else l0
  let s2 := rho_pi s1
  let l2 := if verbose then l1 ++ [Event.stateDump s2] else l1
  let s3 := chi s2
  let l3 := if verbose then l2 ++ [Event.stateDump s3] else l2
  let s4 := iota round s3
  let l4 := if verbose then l3 ++ [Event.stateDump s4] else l3
  (s4, l4)

/-- `keccak` with its `verbose` parameter: 24 rounds of `keccakVStep`. -/
def keccakVerbose (verbose : Bool) (s : KState) (log : List Event) :
    KState × List Event :=
  (List.range 24).foldl (keccakVStep verbose) (s, log)

/-- The driver loop of `main` with its `verbose` flag, emitting the print
events of the source around padding, absorption and the permutation. -/
def sha3_absorbFV : Nat → Bool → KState → List Event → List Nat →
    KState × List Event
  | 0, _, s, log, _ => (s, log)
  | fuel + 1, v, s, log, msg =>
    let chunk := msg.take 136
    let l0 := if v then log ++ [Event.message 0, Event.stateDump s] else log
    let buf := pad_input (buffer chunk) chunk.length
    let l1 := if v then l0 ++ [Event.inputDump buf] else l0
    let s1 := absorb_input buf s
    let l2 := if v then l1 ++ [Event.stateDump s1, Event.laneDump s1] else l1
    let p := keccakVerbose v s1 l2
    if chunk.length = 136 then sha3_absorbFV fuel v p.1 p.2 (msg.drop 136) else p

/-- The driver loop of `main` on a message, with the `verbose` flag. -/
def sha3_absorbV (v : Bool) (s : KState) (msg : List Nat) : KState × List Event :=
  sha3_absorbFV (msg.length / 136 + 1) v s [] msg

/-- A well-formed state: five rows of five lanes. -/
def WF (s : KState) : Prop := s.length = 5 ∧ ∀ row ∈ s, row.length = 5

instance (s : KState) : Decidable (WF s) := by unfold WF; infer_instance

/-- `n` rounds of the keccak permutation written as explicit recursion:
round `k` applies theta, then the combined rho/pi, then chi, then iota with
round constant `k`, in that order. -/
def applyRounds : Nat → KState → KState
  | 0, s => s
  | n + 1, s => iota n (chi (rho_pi (theta (applyRounds n s))))

/-- `n` keccak rounds starting at round index `r` (so `roundsFrom 0 24` is the
whole permutation); used to split concrete permutation computations into
manageable pieces. -/
def roundsFrom : Nat → Nat → KState → KState
  | _, 0, s => s
  | r, n + 1, s => roundsFrom (r + 1) n (iota r (chi (rho_pi (theta s))))

/-- The 64-bit integer formed by the 8 buffer bytes at offsets
`8 * i .. 8 * i + 7` in little-endian order (the byte at `8 * i` least
significant), stated as the specification words it: a weighted sum. -/
def leLane (input : List Nat) (i : Nat) : Nat :=
  ((List.range 8).map (fun j => input.getD (i * 8 + j) 0 * 2 ^ (8 * j))).sum

/-- `k` absorb/permute passes over full 136-byte data blocks, with no padding
applied: the reference behaviour of the driver on the full blocks of a
message whose length is an exact multiple of the rate. -/
def absorbFullBlocks : Nat → KState → List Nat → KState
  | 0, s, _ => s
  | k + 1, s, msg =>
    absorbFullBlocks k (keccak (absorb_input (buffer (msg.take 136)) s)) (msg.drop 136)

/-! ## Helper lemmas -/

lemma extract_digest_length (s : KState) : (extract_digest s).length = 32 := by
  simp [extract_digest, List.range_succ]

lemma hexChars_length (bs : List Nat) :
    (bs.foldr (fun b acc => byteToHex b ++ acc) []).length = 2 * bs.length := by
  induction bs with
  | nil => rfl
  | cons b bs ih =>
    show (byteToHex b ++ bs.foldr (fun b acc => byteToHex b ++ acc) []).length
      = 2 * (bs.length + 1)
    rw [List.length_append, ih, show (byteToHex b).length = 2 from rfl]
    omega

lemma roundsFrom_add (m n : Nat) : ∀ (r : Nat) (s : KState),
    roundsFrom r (m + n) s = roundsFrom (r + m) n (roundsFrom r m s) := by
  induction m with
  | zero => intro r s; rw [Nat.zero_add, Nat.add_zero]; rfl
  | succ m ih =>
    intro r s
    rw [Nat.succ_add]
    show roundsFrom (r + 1) (m + n) (iota r (chi (rho_pi (theta s)))) = _
    rw [ih]
    show roundsFrom (r + 1 + m) n _ = roundsFrom (r + (m + 1)) n _
    rw [show r + 1 + m = r + (m + 1) by omega]
    rfl

lemma foldl_range_rounds (n : Nat) (s : KState) :
    (List.range n).foldl (fun st round => iota round (chi (rho_pi (theta st)))) s
      = applyRounds n s := by
  induction n with
  | zero => rfl
  | succ n ih =>
    rw [List.range_succ, List.foldl_append, ih]
    simp only [List.foldl_cons, List.foldl_nil]
    rw [show applyRounds (n + 1) s = iota n (chi (rho_pi (theta (applyRounds n s)))) from rfl]

lemma applyRounds_eq_roundsFrom (n : Nat) (s : KState) :
    applyRounds n s = roundsFrom 0 n s := by
  induction n with
  | zero => rfl
  | succ n ih =>
    show iota n (chi (rho_pi (theta (applyRounds n s)))) = _
    rw [ih, roundsFrom_add n 1 0 s, Nat.zero_add]
    rfl

lemma keccak_eq_roundsFrom (s : KState) : keccak s = roundsFrom 0 24 s := by
  have h1 : keccak s = applyRounds 24 s := foldl_range_rounds 24 s
  rw [h1, applyRounds_eq_roundsFrom]

lemma sha3_absorbF_succ (fuel : Nat) (s : KState) (msg : List Nat) :
    sha3_absorbF (fuel + 1) s msg =
      if (msg.take 136).length = 136 then
        sha3_absorbF fuel
          (keccak (absorb_input (pad_input (buffer (msg.take 136)) (msg.take 136).length) s))
          (msg.drop 136)
      else
        keccak (absorb_input (pad_input (buffer (msg.take 136)) (msg.take 136).length) s) :=
  rfl

lemma sha3_absorb_step (s : KState) (msg : List Nat) :
    sha3_absorb s msg =
      if (msg.take 136).length = 136 then
        sha3_absorb
          (keccak (absorb_input (pad_input (buffer (msg.take 136)) (msg.take 136).length) s))
          (msg.drop 136)
      else
        keccak (absorb_input (pad_input (buffer (msg.take 136)) (msg.take 136).length) s) := by
  unfold sha3_absorb
  rw [sha3_absorbF_succ]
  by_cases h : 136 ≤ msg.length
  · have htake : (msg.take 136).length = 136 := by
      rw [List.length_take]; omega
    rw [if_pos htake, if_pos htake]
    have hfuel : msg.length / 136 = (msg.drop 136).length / 136 + 1 := by
      rw [List.length_drop]
      exact Nat.div_eq_sub_div (by norm_num) h
    rw [hfuel]
  · have hne : ¬ (msg.take 136).length = 136 := by
      rw [List.length_take]; omega
    rw [if_neg hne, if_neg hne]

set_option maxRecDepth 100000 in
lemma keccak_empty_block :
    keccak (absorb_input (pad_input (buffer []) 0) init_state) =
      [[7410425521722818471, 7121987202003222865, 18035012034529034485,
        5351394012144785538, 16353532546077582930],
       [18412783603198760294, 9284587722384849545, 2944999383351570747,
        264653659749781196, 8654012947508770025],
       [14017358335954132601, 2407256339670638387, 2895390452210067295,
        15095255416571082424, 17316587762701255502],
       [6013984437109885360, 14035109111570034974, 7163060779998355890,
        15638812977766777522, 10466102270734619430],
       [3745926604053256215, 3130384482864979544, 1444385073371977593,
        9616104016769313630, 10525877764722749669]] := by
  have h0 : absorb_input (pad_input (buffer []) 0) init_state =
      [[6, 0, 0, 0, 0], [0, 0, 0, 0, 0], [0, 0, 0, 0, 0],
       [0, 9223372036854775808, 0, 0, 0], [0, 0, 0, 0, 0]] := by decide
  have h1 : roundsFrom 0 6
      [[6, 0, 0, 0, 0], [0, 0, 0, 0, 0], [0, 0, 0, 0, 0],
       [0, 9223372036854775808, 0, 0, 0], [0, 0, 0, 0, 0]] =
      [[9483162698803045174, 12007212890709712431, 17435175827654602676,
        8486480662041212453, 9526846589418675573],
       [15125076734612946812, 958534017577947951, 1872606026061182822,
        10364926476932953056, 9464203862909218384],
       [18378181469216182432, 16920322108529473199, 8781835651276503444,
        15911865059407486309, 10357861259042353499],
       [11010522232214545181, 17802205090270294701, 8736128982157158151,
        7396096506158267772, 18380833089523027876],
       [5548639316362470161, 16039148885049289108, 8862706186327029420,
        155156323329616577, 1626499892588247176]] := by decide
  have h2 : roundsFrom 6 6
      [[9483162698803045174, 12007212890709712431, 17435175827654602676,
        8486480662041212453, 9526846589418675573],
       [15125076734612946812, 958534017577947951, 1872606026061182822,
        10364926476932953056, 9464203862909218384],
       [18378181469216182432, 16920322108529473199, 8781835651276503444,
        15911865059407486309, 10357861259042353499],
       [11010522232214545181, 17802205090270294701, 8736128982157158151,
        7396096506158267772, 18380833089523027876],
       [5548639316362470161, 16039148885049289108, 8862706186327029420,
        155156323329616577, 1626499892588247176]] =
      [[4729393192707380424, 7591824700066759546, 17544553718926292483,
        8339471234579998402, 10743143294245820878],
       [2620215451244494019, 11466054108966740848, 1055145236959410888,
        6396065552505458715, 11536501075570233788],
       [1386363097019973212, 13209845398898596921, 10728344661463241791,
        5890439172248547366, 17621958197294309238],
       [1390514054955117465, 2345733533203625698, 8860789452422830983,
        11138704127254802281, 13580834561560196003],
       [8852701050564364688, 642396674773979280, 9254161997943102671,
        9133671768421447062, 10912630983952297666]] := by decide
  have h3 : roundsFrom 12 6
      [[4729393192707380424, 7591824700066759546, 17544553718926292483,
        8339471234579998402, 10743143294245820878],
       [2620215451244494019, 11466054108966740848, 1055145236959410888,
        6396065552505458715, 11536501075570233788],
       [1386363097019973212, 13209845398898596921, 10728344661463241791,
        5890439172248547366, 17621958197294309238],
       [1390514054955117465, 2345733533203625698, 8860789452422830983,
        11138704127254802281, 13580834561560196003],
       [8852701050564364688, 642396674773979280, 9254161997943102671,
        9133671768421447062, 10912630983952297666]] =
      [[8598110463207035811, 11707043542822909891, 12928523442000737109,
        5227091656099271120, 17860141597751349512],
       [14461444806375696224, 16631666371334156484, 16940308809946437696,
        14540565979645090434, 1625207705267963842],
       [3916194439773990458, 727746493546373920, 13420560601405967204,
        14634315077406254618, 8304915630548243669],
       [13588510750141289630, 15408048679488705747, 4569638375130835917,
        14345635429038982589, 13410103311936741171],
       [11226492747369774714, 17248060594514601878, 5633149201499426058,
        6456300295298876848, 11254029255509327152]] := by decide
  have h4 : roundsFrom 18 6
      [[8598110463207035811, 11707043542822909891, 12928523442000737109,
        5227091656099271120, 17860141597751349512],
       [14461444806375696224, 16631666371334156484, 16940308809946437696,
        14540565979645090434, 1625207705267963842],
       [3916194439773990458, 727746493546373920, 13420560601405967204,
        14634315077406254618, 8304915630548243669],
       [13588510750141289630, 15408048679488705747, 4569638375130835917,
        14345635429038982589, 13410103311936741171],
       [11226492747369774714, 17248060594514601878, 5633149201499426058,
        6456300295298876848, 11254029255509327152]] =
      [[7410425521722818471, 7121987202003222865, 18035012034529034485,
        5351394012144785538, 16353532546077582930],
       [18412783603198760294, 9284587722384849545, 2944999383351570747,
        264653659749781196, 8654012947508770025],
       [14017358335954132601, 2407256339670638387, 2895390452210067295,
        15095255416571082424, 17316587762701255502],
       [6013984437109885360, 14035109111570034974, 7163060779998355890,
        15638812977766777522, 10466102270734619430],
       [3745926604053256215, 3130384482864979544, 1444385073371977593,
        9616104016769313630, 10525877764722749669]] := by decide
  rw [h0, keccak_eq_roundsFrom]
  rw [show (24 : Nat) = 6 + 18 from rfl, roundsFrom_add, h1]
  rw [show (0 : Nat) + 6 = 6 from rfl]
  rw [show (18 : Nat) = 6 + 12 from rfl, roundsFrom_add, h2]
  rw [show (6 : Nat) + 6 = 12 from rfl]
  rw [show (12 : Nat) = 6 + 6 from rfl, roundsFrom_add, h3]
  rw [show (12 : Nat) + 6 = 18 from rfl]
  exact h4

lemma sha3_absorb_empty :
    sha3_absorb init_state [] =
      [[7410425521722818471, 7121987202003222865, 18035012034529034485,
        5351394012144785538, 16353532546077582930],
       [18412783603198760294, 9284587722384849545, 2944999383351570747,
        264653659749781196, 8654012947508770025],
       [14017358335954132601, 2407256339670638387, 2895390452210067295,
        15095255416571082424, 17316587762701255502],
       [6013984437109885360, 14035109111570034974, 7163060779998355890,
        15638812977766777522, 10466102270734619430],
       [3745926604053256215, 3130384482864979544, 1444385073371977593,
        9616104016769313630, 10525877764722749669]] := by
  rw [sha3_absorb_step]
  simp only [List.take_nil, List.length_nil]
  rw [if_neg (by omega)]
  exact keccak_empty_block

/-! ## Claim theorems (first batch) -/

set_option maxRecDepth 100000 in
/-- C1: hashing the empty byte sequence yields the 32 digest bytes
`a7 ff c6 f8 ... 43 4a`, which render as the lowercase hex string
`a7ffc6f8bf1ed76651c14756a061d662f580ff4de43b49fa82d80a4b80f8434a`. -/
theorem empty_input_known_vector :
    sha3_256 [] =
      [0xa7, 0xff, 0xc6, 0xf8, 0xbf, 0x1e, 0xd7, 0x66,
       0x51, 0xc1, 0x47, 0x56, 0xa0, 0x61, 0xd6, 0x62,
       0xf5, 0x80, 0xff, 0x4d, 0xe4, 0x3b, 0x49, 0xfa,
       0x82, 0xd8, 0x0a, 0x4b, 0x80, 0xf8, 0x43, 0x4a] ∧
    hexRender (sha3_256 []) =
      "a7ffc6f8bf1ed76651c14756a061d662f580ff4de43b49fa82d80a4b80f8434a" := by
  have h : sha3_256 [] = extract_digest (sha3_absorb init_state []) := rfl
  rw [h, sha3_absorb_empty]
  exact ⟨by decide, by decide⟩

set_option maxRecDepth 100000 in
/-- C2 (code bug): on the empty input the line `main` prints is
`0x66d71ebff8c6ffa7...b7be6652`: it is built from lane (0,4) instead of
lane (0,3) and renders each lane most-significant-digit-first via `%lx`,
so it differs from the little-endian hex rendering of the digest bytes
that the claim (and the code's own verbose digest dump) specifies. -/
theorem main_output_rendering_bug :
    main_output (sha3_absorb init_state []) =
      "0x66d71ebff8c6ffa762d661a05647c151fa493be44dff80f5e2f36b34b7be6652" ∧
    main_output (sha3_absorb init_state []) ≠
      hexRender (extract_digest (sha3_absorb init_state [])) ∧
    getLane (sha3_absorb init_state []) 0 4 ≠
      getLane (sha3_absorb init_state []) 0 3 := by
  rw [sha3_absorb_empty]
  exact ⟨by decide, by decide, by decide⟩

/-- C8: the digest is always exactly 32 bytes (64 hex characters when
rendered), for every input byte sequence. -/
theorem digest_length_32 (msg : List Nat) :
    (sha3_256 msg).length = 32 ∧ (hexRender (sha3_256 msg)).length = 64 := by
  refine ⟨extract_digest_length _, ?_⟩
  have h : (hexRender (sha3_256 msg)).length
      = ((sha3_256 msg).foldr (fun b acc => byteToHex b ++ acc) []).length := rfl
  rw [h, hexChars_length, show (sha3_256 msg).length = 32 from extract_digest_length _]

/-! ## Driver claims -/

lemma pad_input_full (input : List Nat) : pad_input input 136 = input := by
  simp [pad_input]

/-- C3: on a message whose length is an exact multiple of the rate
(`136 * k` bytes, including `k = 1`, a full-rate read immediately followed
by end of input), the driver performs the `k` unpadded full-block
absorb/permute passes and then one extra absorb/permute pass on the
fully padded empty block (`pad_input` applied with `L = 0` to the zeroed
buffer), before the digest is extracted. -/
theorem exact_multiple_extra_padded_block (k : Nat) (msg : List Nat)
    (h : msg.length = 136 * k) (s : KState) :
    sha3_absorb s msg =
      keccak (absorb_input (pad_input (buffer []) 0) (absorbFullBlocks k s msg)) := by
  induction k generalizing msg s with
  | zero =>
    have hnil : msg = [] := List.eq_nil_of_length_eq_zero (by omega)
    subst hnil
    rw [sha3_absorb_step]
    simp only [List.take_nil, List.length_nil]
    rw [if_neg (by omega)]
    rw [show absorbFullBlocks 0 s [] = s from rfl]
  | succ k ih =>
    have htake : (msg.take 136).length = 136 := by
      rw [List.length_take]; omega
    rw [sha3_absorb_step, if_pos htake, htake, pad_input_full]
    rw [ih (msg.drop 136) (by rw [List.length_drop]; omega)]
    rw [show absorbFullBlocks (k + 1) s msg
      = absorbFullBlocks k (keccak (absorb_input (buffer (msg.take 136)) s)) (msg.drop 136)
      from rfl]

/-- Witness for C3 at the one-full-block input (136 zero bytes). -/
theorem exact_multiple_extra_padded_block_witness :
    sha3_absorb init_state (List.replicate 136 0) =
      keccak (absorb_input (pad_input (buffer []) 0)
        (absorbFullBlocks 1 init_state (List.replicate 136 0))) :=
  exact_multiple_extra_padded_block 1 (List.replicate 136 0) (by simp) init_state

/-! ## Verbose-flag noninterference -/

lemma keccakVStep_fst (v : Bool) (p : KState × List Event) (round : Nat) :
    (keccakVStep v p round).1 = iota round (chi (rho_pi (theta p.1))) := by
  simp only [keccakVStep]

lemma foldl_keccakVStep_fst (v : Bool) (L : List Nat) :
    ∀ p : KState × List Event,
      (L.foldl (keccakVStep v) p).1
        = L.foldl (fun st round => iota round (chi (rho_pi (theta st)))) p.1 := by
  induction L with
  | nil => intro p; rfl
  | cons a L ihL =>
    intro p
    rw [List.foldl_cons, List.foldl_cons, ihL (keccakVStep v p a), keccakVStep_fst]

lemma keccakVerbose_fst (v : Bool) (s : KState) (log : List Event) :
    (keccakVerbose v s log).1 = keccak s := by
  show ((List.range 24).foldl (keccakVStep v) (s, log)).1 = _
  rw [foldl_keccakVStep_fst]
  show (List.range 24).foldl (fun st round => iota round (chi (rho_pi (theta st)))) s
    = keccak s
  rw [show keccak s
    = (List.range 24).foldl (fun st round => iota round (chi (rho_pi (theta st)))) s
    from rfl]

lemma sha3_absorbFV_fst (fuel : Nat) (v : Bool) :
    ∀ (s : KState) (log : List Event) (msg : List Nat),
      (sha3_absorbFV fuel v s log msg).1 = sha3_absorbF fuel s msg := by
  induction fuel with
  | zero => intro s log msg; rfl
  | succ fuel ih =>
    intro s log msg
    simp only [sha3_absorbFV, sha3_absorbF]
    by_cases hc : (msg.take 136).length = 136
    · simp only [if_pos hc, ih, keccakVerbose_fst]
    · simp only [if_neg hc, keccakVerbose_fst]

/-- C9: the verbose flag influences only diagnostic printing: for every input
and every starting state, the final state (and hence the digest) computed
with the flag set equals the one computed with it clear. -/
theorem verbose_noninterference (msg : List Nat) (s : KState) :
    (sha3_absorbV true s msg).1 = (sha3_absorbV false s msg).1 ∧
    extract_digest (sha3_absorbV true s msg).1
      = extract_digest (sha3_absorbV false s msg).1 := by
  have h1 : (sha3_absorbV true s msg).1 = sha3_absorb s msg :=
    sha3_absorbFV_fst (msg.length / 136 + 1) true s [] msg
  have h2 : (sha3_absorbV false s msg).1 = sha3_absorb s msg :=
    sha3_absorbFV_fst (msg.length / 136 + 1) false s [] msg
  rw [h1, h2]
  exact ⟨rfl, rfl⟩

/-! ## Padding claims -/

lemma getD_set_ne {α : Type} (l : List α) (d : α) (i j : Nat) (a : α)
    (h : i ≠ j) : (l.set i a).getD j d = l.getD j d := by
  simp [List.getD_eq_getElem?_getD, List.getElem?_set_ne h]

lemma getD_set_self {α : Type} (l : List α) (d : α) (i : Nat) (a : α)
    (h : i < l.length) : (l.set i a).getD i d = a := by
  simp [List.getD_eq_getElem?_getD, List.getElem?_set_eq_of_lt a h]

lemma foldl_set_getD_of_forall_ne (ps : List Nat) (base v k : Nat) (l : List Nat)
    (h : ∀ p ∈ ps, base + p ≠ k) :
    (ps.foldl (fun st i => st.set (base + i) v) l).getD k 0 = l.getD k 0 := by
  induction ps generalizing l with
  | nil => rfl
  | cons a ps ih =>
    rw [List.foldl_cons, ih _ (fun p hp => h p (List.mem_cons_of_mem a hp)),
      getD_set_ne _ _ _ _ _ (h a (List.mem_cons_self a ps))]

lemma foldl_set_length (ps : List Nat) (base v : Nat) (l : List Nat) :
    (ps.foldl (fun st i => st.set (base + i) v) l).length = l.length := by
  induction ps generalizing l with
  | nil => rfl
  | cons a ps ih => rw [List.foldl_cons, ih, List.length_set]

lemma foldl_set_getD_const (ps : List Nat) (base v k : Nat) (l : List Nat)
    (h : l.getD k 0 = v) :
    (ps.foldl (fun st i => st.set (base + i) v) l).getD k 0 = v := by
  induction ps generalizing l with
  | nil => exact h
  | cons a ps ih =>
    rw [List.foldl_cons]
    refine ih _ ?_
    by_cases hk : base + a = k
    · by_cases hlt : k < l.length
      · rw [hk]; exact getD_set_self l 0 k v (hk ▸ hlt)
      · rw [List.set_eq_of_length_le (by omega)]; exact h
    · rw [getD_set_ne _ _ _ _ _ hk]; exact h

/-- C10: `pad_input` writes only to offsets `input_len .. 135`: every offset
below `input_len` (and every offset from 136 up) keeps its byte, and with
`input_len = 136` the buffer is returned entirely unchanged. -/
theorem pad_input_frame (input : List Nat) (input_len : Nat) :
    (∀ k, k < input_len ∨ 136 ≤ k →
      (pad_input input input_len).getD k 0 = input.getD k 0) ∧
    (input_len = 136 → pad_input input input_len = input) := by
  constructor
  · intro k hk
    by_cases hL : input_len < 136
    · have hmod : input_len % 136 = input_len := Nat.mod_eq_of_lt hL
      simp only [pad_input, if_pos hL, hmod]
      by_cases h1 : 136 - input_len = 1
      · rw [if_pos h1]
        exact getD_set_ne _ _ _ _ _ (by omega)
      · rw [if_neg h1]
        by_cases h2 : 136 - input_len = 2
        · rw [if_pos h2]
          rw [getD_set_ne _ _ _ _ _ (by omega), getD_set_ne _ _ _ _ _ (by omega)]
        · rw [if_neg h2]
          rw [getD_set_ne _ _ _ _ _ (by omega)]
          rw [foldl_set_getD_of_forall_ne _ _ _ _ _ ?_]
          · exact getD_set_ne _ _ _ _ _ (by omega)
          · intro p hp
            rw [List.mem_range'] at hp
            obtain ⟨i, hi, rfl⟩ := hp
            omega
    · simp only [pad_input, if_neg hL]
  · intro h
    subst h
    simp [pad_input]

/-- Witness for C10 at `input_len = 5`, offset 3, and at `input_len = 136`. -/
theorem pad_input_frame_witness :
    (pad_input (List.replicate 200 7) 5).getD 3 0 = (List.replicate 200 7).getD 3 0 ∧
    pad_input (List.replicate 200 7) 136 = List.replicate 200 7 :=
  ⟨(pad_input_frame (List.replicate 200 7) 5).1 3 (Or.inl (by omega)),
   (pad_input_frame (List.replicate 200 7) 136).2 rfl⟩

/-- C4: on a buffer whose bytes at offsets `L .. 135` are zero, `pad_input`
with `input_len = L ≤ 135` produces, with `q = 136 - L`: byte `0x86` at
offset `L` when `q = 1`; bytes `0x06, 0x80` at offsets `L, L + 1` when
`q = 2`; and when `q > 2`, byte `0x06` at offset `L`, zero bytes at offsets
`L + 1 .. L + q - 2`, and byte `0x80` at offset `L + q - 1 = 135`. -/
theorem pad_input_cases (L : Nat) (input : List Nat) (hL : L ≤ 135)
    (hlen : input.length = 200)
    (hz : ∀ k, L ≤ k → k ≤ 135 → input.getD k 0 = 0) :
    (136 - L = 1 → (pad_input input L).getD L 0 = 0x86) ∧
    (136 - L = 2 → (pad_input input L).getD L 0 = 0x06 ∧
      (pad_input input L).getD (L + 1) 0 = 0x80) ∧
    (2 < 136 - L → (pad_input input L).getD L 0 = 0x06 ∧
      (∀ k, L + 1 ≤ k → k ≤ L + (136 - L) - 2 → (pad_input input L).getD k 0 = 0) ∧
      (pad_input input L).getD (L + (136 - L) - 1) 0 = 0x80 ∧
      L + (136 - L) - 1 = 135) := by
  have hLlt : L < 136 := by omega
  have hmod : L % 136 = L := Nat.mod_eq_of_lt hLlt
  simp only [pad_input, if_pos hLlt, hmod]
  refine ⟨?_, ?_, ?_⟩
  · intro h1
    rw [if_pos h1]
    exact getD_set_self _ _ _ _ (by omega)
  · intro h2
    rw [if_neg (by omega : ¬ 136 - L = 1), if_pos h2]
    exact ⟨by rw [getD_set_ne _ _ _ _ _ (by omega)]; exact getD_set_self _ _ _ _ (by omega),
      getD_set_self _ _ _ _ (by simp [hlen]; omega)⟩
  · intro h3
    rw [if_neg (by omega : ¬ 136 - L = 1), if_neg (by omega : ¬ 136 - L = 2)]
    refine ⟨?_, ?_, ?_, by omega⟩
    · rw [getD_set_ne _ _ _ _ _ (by omega)]
      rw [foldl_set_getD_of_forall_ne _ _ _ _ _ ?_]
      · exact getD_set_self _ _ _ _ (by omega)
      · intro p hp
        rw [List.mem_range'] at hp
        obtain ⟨i, hi, rfl⟩ := hp
        omega
    · intro k hk1 hk2
      rw [getD_set_ne _ _ _ _ _ (by omega)]
      refine foldl_set_getD_const _ _ _ _ _ ?_
      rw [getD_set_ne _ _ _ _ _ (by omega)]
      exact hz k (by omega) (by omega)
    · rw [show L + (136 - L) - 1 = L + (136 - L - 2) + 1 by omega]
      exact getD_set_self _ _ _ _
        (by rw [foldl_set_length, List.length_set, hlen]; omega)

/-- Witness for C4 at `L = 0` on the zeroed 200-byte buffer. -/
theorem pad_input_cases_witness :
    (pad_input (List.replicate 200 0) 0).getD 0 0 = 0x06 ∧
    (pad_input (List.replicate 200 0) 0).getD (0 + (136 - 0) - 1) 0 = 0x80 := by
  have hz : ∀ k, 0 ≤ k → k ≤ 135 → (List.replicate 200 0).getD k 0 = 0 := by
    intro k _ hk
    rw [List.getD_eq_getElem?_getD, List.getElem?_replicate, if_pos (by omega)]
    rfl
  have h := (pad_input_cases 0 (List.replicate 200 0) (by omega)
    (by rw [List.length_replicate]) hz).2.2 (by omega)
  exact ⟨h.1, h.2.2.1⟩

/-! ## Lane access lemmas -/

lemma getLane_setLane_ne (s : KState) (a b r c v : Nat) (h : ¬(a = r ∧ b = c)) :
    getLane (setLane s a b v) r c = getLane s r c := by
  unfold getLane setLane
  by_cases har : a = r
  · subst har
    have hbc : b ≠ c := fun hbc => h ⟨rfl, hbc⟩
    by_cases hlt : a < s.length
    · rw [getD_set_self _ _ _ _ hlt]
      exact getD_set_ne _ _ _ _ _ hbc
    · rw [List.set_eq_of_length_le (by omega)]
  · rw [getD_set_ne _ _ _ _ _ har]

lemma getLane_setLane_self (s : KState) (a b v : Nat) (ha : a < s.length)
    (hb : b < (s.getD a []).length) :
    getLane (setLane s a b v) a b = v := by
  unfold getLane setLane
  rw [getD_set_self _ _ _ _ ha, getD_set_self _ _ _ _ hb]

lemma setLane_length (s : KState) (a b v : Nat) :
    (setLane s a b v).length = s.length := by
  unfold setLane
  exact List.length_set s a _

lemma setLane_row_length (s : KState) (a b v r : Nat) :
    ((setLane s a b v).getD r []).length = (s.getD r []).length := by
  unfold setLane
  by_cases har : a = r
  · subst har
    by_cases hlt : a < s.length
    · rw [getD_set_self _ _ _ _ hlt, List.length_set]
    · rw [List.set_eq_of_length_le (by omega)]
  · rw [getD_set_ne _ _ _ _ _ har]

lemma WF_row_length (s : KState) (h : WF s) (r : Nat) (hr : r < 5) :
    (s.getD r []).length = 5 := by
  obtain ⟨hl, hrow⟩ := h
  refine hrow _ ?_
  rw [List.getD_eq_getElem s [] (by omega)]
  exact List.getElem_mem _

/-! ## Absorption claims -/

lemma laneOfBytes_eq_leLane (input : List Nat) (hb : ∀ b ∈ input, b < 256)
    (i : Nat) : laneOfBytes input i = leLane input i := by
  have hby : ∀ k, input.getD k 0 < 256 := by
    intro k
    by_cases hk : k < input.length
    · rw [List.getD_eq_getElem input 0 hk]
      exact hb _ (List.getElem_mem hk)
    · rw [List.getD_eq_default _ _ (by omega)]
      omega
  have key : ∀ w j : Nat, (w <<< 8) ||| input.getD j 0 = w * 256 + input.getD j 0 := by
    intro w j
    rw [Nat.shiftLeft_eq, show (2 : Nat) ^ 8 = 256 from rfl, Nat.mul_comm w 256]
    exact (Nat.mul_add_lt_is_or (show input.getD j 0 < 2 ^ 8 from hby j) w).symm
  show (List.range 8).foldr (fun j w => (w <<< 8) ||| input.getD (i * 8 + j) 0) 0 = _
  rw [show List.range 8 = [0, 1, 2, 3, 4, 5, 6, 7] from rfl]
  simp only [List.foldr_cons, List.foldr_nil, key]
  simp only [leLane, show List.range 8 = [0, 1, 2, 3, 4, 5, 6, 7] from rfl,
    List.map_cons, List.map_nil, List.sum_cons, List.sum_nil]
  norm_num
  omega

lemma absorb_foldl_getLane_ne (input : List Nat) (ps : List Nat) (r c : Nat)
    (hp : ∀ p ∈ ps, ¬(p / 5 = r ∧ p % 5 = c)) :
    ∀ st : KState,
      getLane (ps.foldl (fun st2 i =>
          setLane st2 (i / 5) (i % 5)
            (getLane st2 (i / 5) (i % 5) ^^^ laneOfBytes input i)) st) r c
        = getLane st r c := by
  induction ps with
  | nil => intro st; rfl
  | cons a ps ih =>
    intro st
    rw [List.foldl_cons, ih (fun p hp2 => hp p (List.mem_cons_of_mem a hp2)),
      getLane_setLane_ne _ _ _ _ _ _ (hp a (List.mem_cons_self a ps))]

lemma absorb_foldl_length (input : List Nat) (ps : List Nat) :
    ∀ st : KState,
      (ps.foldl (fun st2 i =>
          setLane st2 (i / 5) (i % 5)
            (getLane st2 (i / 5) (i % 5) ^^^ laneOfBytes input i)) st).length
        = st.length := by
  induction ps with
  | nil => intro st; rfl
  | cons a ps ih =>
    intro st
    rw [List.foldl_cons, ih, setLane_length]

lemma absorb_foldl_row_length (input : List Nat) (ps : List Nat) (r : Nat) :
    ∀ st : KState,
      ((ps.foldl (fun st2 i =>
          setLane st2 (i / 5) (i % 5)
            (getLane st2 (i / 5) (i % 5) ^^^ laneOfBytes input i)) st).getD r []).length
        = (st.getD r []).length := by
  induction ps with
  | nil => intro st; rfl
  | cons a ps ih =>
    intro st
    rw [List.foldl_cons, ih, setLane_row_length]

/-- C7: `absorb_input` leaves the 8 capacity lanes — the positions `(r, c)`
with flat index `5 r + c` in `17 .. 24` — exactly unchanged, for every input
block and every state. -/
theorem absorb_capacity_untouched (input : List Nat) (s : KState)
    (r c : Nat) (hr : r < 5) (hc : c < 5) (hcap : 17 ≤ 5 * r + c) :
    getLane (absorb_input input s) r c = getLane s r c := by
  show getLane ((List.range 17).foldl (fun st2 i =>
      setLane st2 (i / 5) (i % 5)
        (getLane st2 (i / 5) (i % 5) ^^^ laneOfBytes input i)) s) r c = getLane s r c
  refine absorb_foldl_getLane_ne input (List.range 17) r c ?_ s
  intro p hp hdm
  rw [List.mem_range] at hp
  obtain ⟨h1, h2⟩ := hdm
  have hdiv := Nat.div_add_mod p 5
  omega

/-- Witness for C7 at capacity lane (4,4). -/
theorem absorb_capacity_untouched_witness :
    getLane (absorb_input (List.replicate 136 1) init_state) 4 4
      = getLane init_state 4 4 :=
  absorb_capacity_untouched (List.replicate 136 1) init_state 4 4
    (by omega) (by omega) (by omega)

lemma absorb_foldl_getLane_hit (input : List Nat) (i : Nat) (ps qs : List Nat)
    (hp : ∀ p ∈ ps, ¬(p / 5 = i / 5 ∧ p % 5 = i % 5))
    (hq : ∀ p ∈ qs, ¬(p / 5 = i / 5 ∧ p % 5 = i % 5))
    (st : KState) (hr : i / 5 < st.length)
    (hc : i % 5 < (st.getD (i / 5) []).length) :
    getLane ((ps ++ i :: qs).foldl (fun st2 k =>
        setLane st2 (k / 5) (k % 5)
          (getLane st2 (k / 5) (k % 5) ^^^ laneOfBytes input k)) st) (i / 5) (i % 5)
      = getLane st (i / 5) (i % 5) ^^^ laneOfBytes input i := by
  rw [List.foldl_append, List.foldl_cons]
  rw [absorb_foldl_getLane_ne input qs _ _ hq]
  rw [getLane_setLane_self _ _ _ _ (by rw [absorb_foldl_length]; exact hr)
    (by rw [absorb_foldl_row_length]; exact hc)]
  rw [absorb_foldl_getLane_ne input ps _ _ hp st]

lemma range_17_split (i : Nat) (hi : i < 17) :
    List.range 17 = List.range i ++ i :: List.range' (i + 1) (16 - i) := by
  have h1 : List.range' i (17 - i) = i :: List.range' (i + 1) (16 - i) := by
    rw [show 17 - i = (16 - i) + 1 by omega]
    exact List.range'_succ i (16 - i) 1
  rw [List.range_eq_range', List.range_eq_range', ← h1]
  have h2 := List.range'_append_1 0 i (17 - i)
  rw [Nat.zero_add] at h2
  rw [h2, show (17 - i) + i = 17 by omega]

/-- C6: for every large-enough byte block and every 5×5 state, `absorb_input`
XORs into the lane at `(i / 5, i % 5)`, for each lane index `i < 17`, the
64-bit integer formed by the bytes at offsets `8 i .. 8 i + 7` in
little-endian order (the byte at `8 i` least significant). -/
theorem absorb_little_endian_lanes (input : List Nat) (s : KState) (h : WF s)
    (hin : 136 ≤ input.length) (hb : ∀ b ∈ input, b < 256)
    (i : Nat) (hi : i < 17) :
    getLane (absorb_input input s) (i / 5) (i % 5)
      = getLane s (i / 5) (i % 5) ^^^ leLane input i := by
  have hr : i / 5 < s.length := by rw [h.1]; omega
  have hc : i % 5 < (s.getD (i / 5) []).length := by
    rw [WF_row_length s h (i / 5) (by omega)]
    omega
  rw [← laneOfBytes_eq_leLane input hb i]
  show getLane ((List.range 17).foldl (fun st2 k =>
      setLane st2 (k / 5) (k % 5)
        (getLane st2 (k / 5) (k % 5) ^^^ laneOfBytes input k)) s) (i / 5) (i % 5)
    = getLane s (i / 5) (i % 5) ^^^ laneOfBytes input i
  rw [range_17_split i hi]
  refine absorb_foldl_getLane_hit input i (List.range i)
    (List.range' (i + 1) (16 - i)) ?_ ?_ s hr hc
  · intro p hp hdm
    rw [List.mem_range] at hp
    obtain ⟨h1, h2⟩ := hdm
    have e1 := Nat.div_add_mod p 5
    have e2 := Nat.div_add_mod i 5
    omega
  · intro p hp hdm
    rw [List.mem_range'] at hp
    obtain ⟨k, hk, rfl⟩ := hp
    obtain ⟨h1, h2⟩ := hdm
    have e1 := Nat.div_add_mod (i + 1 + 1 * k) 5
    have e2 := Nat.div_add_mod i 5
    omega

set_option maxRecDepth 10000 in
/-- Witness for C6 at lane 5 (state position (1,0)) on 136 bytes of `0x01`. -/
theorem absorb_little_endian_lanes_witness :
    getLane (absorb_input (List.replicate 136 1) init_state) (5 / 5) (5 % 5)
      = getLane init_state (5 / 5) (5 % 5) ^^^ leLane (List.replicate 136 1) 5 :=
  absorb_little_endian_lanes (List.replicate 136 1) init_state (by decide)
    (by decide) (by decide) 5 (by omega)

/-! ## Permutation round structure -/

/-- C5: the permutation applies exactly 24 rounds, each round being theta,
then the combined rho/pi, then chi, then iota, in that order, independent of
the input; and iota XORs the round's fixed constant into lane (0,0) only,
leaving every other lane position unchanged. -/
theorem keccak_round_structure :
    (∀ s : KState, keccak s = applyRounds 24 s) ∧
    (∀ round t, WF t →
      getLane (iota round t) 0 0
        = getLane t 0 0 ^^^ round_constants.getD round 0) ∧
    (∀ round t i j, ¬(i = 0 ∧ j = 0) →
      getLane (iota round t) i j = getLane t i j) := by
  refine ⟨fun s => foldl_range_rounds 24 s, ?_, ?_⟩
  · intro round t h
    show getLane (setLane t 0 0 (getLane t 0 0 ^^^ round_constants.getD round 0)) 0 0
      = getLane t 0 0 ^^^ round_constants.getD round 0
    exact getLane_setLane_self t 0 0 _ (by rw [h.1]; omega)
      (by rw [WF_row_length t h 0 (by omega)]; omega)
  · intro round t i j hne
    show getLane (setLane t 0 0 (getLane t 0 0 ^^^ round_constants.getD round 0)) i j
      = getLane t i j
    exact getLane_setLane_ne t 0 0 i j _ (fun hc => hne ⟨hc.1.symm, hc.2.symm⟩)

/-- Witness for C5: iota at rounds 0 and 3 on the zero state. -/
theorem keccak_round_structure_witness :
    getLane (iota 0 init_state) 0 0
      = getLane init_state 0 0 ^^^ round_constants.getD 0 0 ∧
    getLane (iota 3 init_state) 1 2 = getLane init_state 1 2 :=
  ⟨keccak_round_structure.2.1 0 init_state (by decide),
   keccak_round_structure.2.2 3 init_state 1 2 (by decide)⟩

end Sha3
